import Mathlib

/-!
Verification of the tempmail core components against their specification.

The embedding mirrors the Python sources:
 * rate_limiter.py : RateLimiter (sliding-window admission control),
 * db_storage.py   : DatabaseTempMailStorage over the SQLAlchemy models of
   models.py (TempEmail rows with a unique index on email, Email rows),
 * storage.py      : the in-memory TempMailStorage fallback.

Timestamps of the rate limiter are natural numbers counted in microseconds
(the resolution of Python datetime); account and message timestamps are
natural numbers counted in seconds.  All Python comparisons in the sources
have the shape d < bound or d > bound with a nonnegative bound, so truncated
Nat subtraction agrees with Python timedelta arithmetic on them.
-/

namespace TempMail

/-- One microsecond-resolution second, the coalescing granularity of
rate_limiter.py (total_seconds() < 1). -/
def MICROS : Nat := 1000000

/-- A (timestamp, count) pair stored in RateLimiter.request_counts. -/
structure Bucket where
  timestamp : Nat
  count : Nat
deriving DecidableEq

/-- The quota table of RateLimiter.__init__: rate_limits with
default_rate_limit (20, 60) as the .get fallback. -/
def rateLimits (endpoint : String) : Nat × Nat :=
  if endpoint = "generate_email" then (5, 60)
  else if endpoint = "get_emails" then (60, 60)
  else if endpoint = "get_email_content" then (60, 60)
  else if endpoint = "delete_email" then (30, 60)
  else if endpoint = "delete_account" then (5, 60)
  else (20, 60)

/-- RateLimiter._cleanup_old_requests: keep the buckets with
now - timestamp < timeframe. -/
def cleanupOldRequests (l : List Bucket) (now window : Nat) : List Bucket :=
  l.filter (fun b => now - b.timestamp < window)

/-- The recent_requests sum of check_rate_limit: total count of the buckets
with now - timestamp < timeframe. -/
def recentRequests (l : List Bucket) (now window : Nat) : Nat :=
  ((l.filter (fun b => now - b.timestamp < window)).map Bucket.count).sum

/-- RateLimiter._add_request: increment the last bucket when the new
timestamp is less than one second past it, else append a fresh bucket. -/
def addRequest (l : List Bucket) (timestamp : Nat) : List Bucket :=
  match l.getLast? with
  | some last =>
      if timestamp - last.timestamp < MICROS then
        l.dropLast ++ [⟨last.timestamp, last.count + 1⟩]
      else
        l ++ [⟨timestamp, 1⟩]
  | none => l ++ [⟨timestamp, 1⟩]

/-- The effect of RateLimiter.check_rate_limit on the bucket list of one
(ip, endpoint) key: clean, count, then reject or record. -/
def stepList (maxRequests window : Nat) (l : List Bucket) (now : Nat) :
    Bool × List Bucket :=
  let cleaned := cleanupOldRequests l now window
  if maxRequests ≤ recentRequests cleaned now window then
    (false, cleaned)
  else
    (true, addRequest cleaned now)

/-- RateLimiter state: request_counts, a defaultdict keyed by ip and then by
endpoint, holding bucket lists. -/
structure RateLimiter where
  requestCounts : String → String → List Bucket

/-- A fresh RateLimiter: every key maps to the empty bucket list. -/
def initialRateLimiter : RateLimiter := ⟨fun _ _ => []⟩

/-- Pointwise update of request_counts at one (ip, endpoint) key. -/
def updateCounts (f : String → String → List Bucket) (ip endpoint : String)
    (v : List Bucket) : String → String → List Bucket :=
  fun i e => if i = ip then (if e = endpoint then v else f i e) else f i e

/-- RateLimiter.check_rate_limit: look up the quota of the endpoint, run the
clean/count/record step on the bucket list of (ip, endpoint), and store the
resulting list back. -/
def checkRateLimit (rl : RateLimiter) (ip endpoint : String) (now : Nat) :
    Bool × RateLimiter :=
  let q := rateLimits endpoint
  let s := stepList q.1 (q.2 * MICROS) (rl.requestCounts ip endpoint) now
  (s.1, ⟨updateCounts rl.requestCounts ip endpoint s.2⟩)

/-- A sequence of check_rate_limit calls for one (ip, endpoint) key at the
given times, collecting the returned booleans. -/
def runCalls (rl : RateLimiter) (ip endpoint : String) :
    List Nat → List Bool × RateLimiter
  | [] => ([], rl)
  | t :: ts =>
      let s := checkRateLimit rl ip endpoint t
      let r := runCalls s.2 ip endpoint ts
      (s.1 :: r.1, r.2)

/-- The single-key companion of runCalls, acting on a bare bucket list. -/
def runList (maxRequests window : Nat) (l : List Bucket) :
    List Nat → List Bool × List Bucket
  | [] => ([], l)
  | t :: ts =>
      let s := stepList maxRequests window l t
      let r := runList maxRequests window s.2 ts
      (s.1 :: r.1, r.2)

/-- Total request count held by a bucket list. -/
def totalCount (l : List Bucket) : Nat := (l.map Bucket.count).sum

/-- Ordering relation of the bucket invariant: the later bucket starts at
least one second after the earlier one. -/
def BucketLt (a b : Bucket) : Prop := a.timestamp + MICROS ≤ b.timestamp

instance : DecidableRel BucketLt := fun a b => by
  unfold BucketLt; infer_instance

/-- Fixed rate limiter state used to witness the C5 theorem. -/
def saturatedLimiter : RateLimiter := ⟨fun _ _ => [⟨0, 5⟩]⟩

/-- Fixed rate limiter state used to witness the C10 theorem. -/
def singleBucketLimiter : RateLimiter := ⟨fun _ _ => [⟨0, 1⟩]⟩


/-! Database model: db_storage.py over the SQLAlchemy models of models.py.
A DB value holds the temp_emails and emails tables in insertion order
(Query.first() without order_by returns the first row in that order)
together with the autoincrement counters.  Account and message timestamps
are counted in seconds. -/

/-- One day in seconds, the expiry horizon timedelta(hours=24). -/
def DAY : Nat := 86400

/-- The account_data dict that api.py passes to add_account: keys id, token
and password (a domain_type key is passed as well but db_storage.add_account
never reads it). -/
structure AccountData where
  id : String
  token : String
  password : String
deriving DecidableEq

/-- A row of the temp_emails table (models.TempEmail); the email column
carries a unique index. -/
structure TempEmailRow where
  id : Nat
  email : String
  account_id : String
  token : String
  password : String
  domain_type : String
  created_at : Nat
  is_active : Bool
deriving DecidableEq

/-- A row of the emails table (models.Email); message_id, sender and
recipient are NOT NULL columns, the remaining text columns are nullable. -/
structure EmailRow where
  id : Nat
  message_id : String
  temp_email_id : Nat
  sender : String
  recipient : String
  subject : Option String
  intro : Option String
  html_content : Option String
  text_content : Option String
  is_read : Bool
  created_at : Nat
deriving DecidableEq

/-- The database state: both tables in insertion order plus the next
autoincrement primary keys. -/
structure DB where
  tempEmails : List TempEmailRow
  emails : List EmailRow
  nextTempId : Nat
  nextEmailId : Nat
deriving DecidableEq

/-- The empty database. -/
def emptyDB : DB := ⟨[], [], 1, 1⟩

/-- An incoming provider message dict (email_data in save_email).  Fields
read with .get may be absent.  createdAt stands for the parsed timestamp of
the createdAt string; none means the field is missing or unparseable, on
which datetime.fromisoformat(email_data.get('createdAt').replace(...))
raises AttributeError or ValueError. -/
structure EmailData where
  id : Option String
  fromAddress : Option String
  subject : Option String
  intro : Option String
  html : Option String
  text : Option String
  seen : Bool
  createdAt : Option Nat
deriving DecidableEq

/-- Replace the first element satisfying p by its image under f, the effect
of mutating the object returned by Query.first() and committing. -/
def updateFirst (p : α → Bool) (f : α → α) : List α → List α
  | [] => []
  | x :: xs => if p x then f x :: xs else x :: updateFirst p f xs

/-- TempEmail.query.filter_by(email=..., is_active=True).first(). -/
def findActiveAccount (db : DB) (email : String) : Option TempEmailRow :=
  db.tempEmails.find? (fun r => r.email == email && r.is_active)

/-- TempEmail.is_expired: now - created_at > 24 hours. -/
def isExpired (r : TempEmailRow) (now : Nat) : Bool :=
  DAY < now - r.created_at

/-- DatabaseTempMailStorage._cleanup_old_accounts: mark every active account
created before now - 24h as inactive. -/
def cleanupOldAccounts (db : DB) (now : Nat) : DB :=
  { db with tempEmails := db.tempEmails.map (fun r =>
      if r.created_at < now - DAY && r.is_active then
        { r with is_active := false }
      else r) }

/-- DatabaseTempMailStorage.add_account: insert a fresh active row; a second
row with the same email violates the unique index on TempEmail.email, so the
commit raises IntegrityError (a SQLAlchemyError), which is caught: rollback
and False.  On success the cleanup sweep runs and the call returns True. -/
def add_account (db : DB) (email : String) (d : AccountData) (now : Nat) :
    Bool × DB :=
  if db.tempEmails.any (fun r => r.email == email) then
    (false, db)
  else
    let row : TempEmailRow :=
      ⟨db.nextTempId, email, d.id, d.token, d.password, "mail_tm", now, true⟩
    (true, cleanupOldAccounts
      { db with
          tempEmails := db.tempEmails ++ [row],
          nextTempId := db.nextTempId + 1 } now)

/-- DatabaseTempMailStorage.remove_account: soft delete of the first row
matching the email, filtered by email only (active or not). -/
def remove_account (db : DB) (email : String) : Bool × DB :=
  match db.tempEmails.find? (fun r => r.email == email) with
  | none => (false, db)
  | some _ =>
      let updated := updateFirst (fun r => r.email == email)
        (fun r => { r with is_active := false }) db.tempEmails
      (true, { db with tempEmails := updated })

/-- The dict returned by DatabaseTempMailStorage.get_account. -/
def accountDict (r : TempEmailRow) : AccountData :=
  ⟨r.account_id, r.token, r.password⟩

/-- DatabaseTempMailStorage.get_account: active lookup; an expired hit is
soft-deleted via remove_account and reported as not found. -/
def get_account (db : DB) (email : String) (now : Nat) :
    Option AccountData × DB :=
  match findActiveAccount db email with
  | none => (none, db)
  | some account =>
      if isExpired account now then
        (none, (remove_account db email).2)
      else
        (some (accountDict account), db)

/-- The duplicate check of save_email:
Email.query.filter_by(message_id=email_data.get('id'),
temp_email_id=account.id).first().  A missing id compares as SQL NULL and
matches no stored row. -/
def findEmailByData (db : DB) (mid : Option String) (accId : Nat) :
    Option EmailRow :=
  db.emails.find? (fun r =>
    mid == some r.message_id && r.temp_email_id == accId)

/-- DatabaseTempMailStorage.save_email.  A none result models an exception
escaping the method: building the new Email row evaluates
datetime.fromisoformat on the createdAt field, which raises AttributeError
or ValueError - neither a SQLAlchemyError - when createdAt is missing or
unparseable.  Inserting NULL into the NOT NULL message_id or sender column
raises IntegrityError at commit, which IS caught: rollback and False. -/
def save_email (db : DB) (email_address : String) (d : EmailData) :
    Option (Bool × DB) :=
  match findActiveAccount db email_address with
  | none => some (false, db)
  | some account =>
      match findEmailByData db d.id account.id with
      | some existing =>
          if existing.is_read != d.seen then
            let updated := updateFirst
              (fun r => d.id == some r.message_id &&
                r.temp_email_id == account.id)
              (fun r => { r with is_read := d.seen }) db.emails
            some (true, { db with emails := updated })
          else
            some (true, db)
      | none =>
          match d.createdAt with
          | none => none
          | some ts =>
              match d.id, d.fromAddress with
              | some mid, some sender =>
                  some (true, { db with
                    emails := db.emails ++
                      [⟨db.nextEmailId, mid, account.id, sender,
                        email_address, d.subject, d.intro, d.html, d.text,
                        d.seen, ts⟩],
                    nextEmailId := db.nextEmailId + 1 })
              | _, _ => some (false, db)

/-- DatabaseTempMailStorage.mark_email_as_read. -/
def mark_email_as_read (db : DB) (email_address mid : String) : Bool × DB :=
  match findActiveAccount db email_address with
  | none => (false, db)
  | some account =>
      match db.emails.find? (fun r =>
          r.message_id == mid && r.temp_email_id == account.id) with
      | some _ =>
          let updated := updateFirst
            (fun r => r.message_id == mid && r.temp_email_id == account.id)
            (fun r => { r with is_read := true }) db.emails
          (true, { db with emails := updated })
      | none => (false, db)

/-- DatabaseTempMailStorage.delete_email: hard delete of the first matching
Email row. -/
def delete_email (db : DB) (email_address mid : String) : Bool × DB :=
  match findActiveAccount db email_address with
  | none => (false, db)
  | some account =>
      match db.emails.find? (fun r =>
          r.message_id == mid && r.temp_email_id == account.id) with
      | some _ =>
          let updated := db.emails.eraseP (fun r =>
            r.message_id == mid && r.temp_email_id == account.id)
          (true, { db with emails := updated })
      | none => (false, db)

/-- The dict built by Email.to_dict() without content. -/
structure EmailSummary where
  id : String
  sender : String
  subject : Option String
  intro : Option String
  isRead : Bool
  createdAt : Nat
deriving DecidableEq

/-- The dict built by Email.to_dict(include_content=True). -/
structure EmailContent where
  id : String
  sender : String
  subject : Option String
  intro : Option String
  isRead : Bool
  createdAt : Nat
  toAddr : String
  text : Option String
  html : Option String
deriving DecidableEq

/-- Email.to_dict(). -/
def toSummary (r : EmailRow) : EmailSummary :=
  ⟨r.message_id, r.sender, r.subject, r.intro, r.is_read, r.created_at⟩

/-- Email.to_dict(include_content=True). -/
def toContent (r : EmailRow) : EmailContent :=
  ⟨r.message_id, r.sender, r.subject, r.intro, r.is_read, r.created_at,
    r.recipient, r.text_content, r.html_content⟩

/-- DatabaseTempMailStorage.get_emails: the messages of the active account,
ordered by created_at descending. -/
def get_emails (db : DB) (email_address : String) : List EmailSummary :=
  match findActiveAccount db email_address with
  | none => []
  | some account =>
      ((db.emails.filter (fun r => r.temp_email_id == account.id)).mergeSort
        (fun a b => b.created_at ≤ a.created_at)).map toSummary

/-- DatabaseTempMailStorage.get_email. -/
def get_email (db : DB) (email_address mid : String) : Option EmailContent :=
  match findActiveAccount db email_address with
  | none => none
  | some account =>
      match db.emails.find? (fun r =>
          r.message_id == mid && r.temp_email_id == account.id) with
      | some e => some (toContent e)
      | none => none

/-! In-memory model: storage.py, the TempMailStorage fallback. -/

/-- The stored account_data dict of storage.py after add_account stamped the
created_at key into it. -/
structure MemAccount where
  data : AccountData
  created_at : Nat
deriving DecidableEq

/-- TempMailStorage state: the accounts dict, in insertion order as a Python
dict preserves it. -/
structure MemStore where
  accounts : List (String × MemAccount)
deriving DecidableEq

/-- Python dict assignment: replace in place when the key exists, else
append. -/
def dictSet (l : List (String × MemAccount)) (k : String) (v : MemAccount) :
    List (String × MemAccount) :=
  if l.any (fun e => e.1 == k) then
    updateFirst (fun e => e.1 == k) (fun _ => (k, v)) l
  else
    l ++ [(k, v)]

/-- TempMailStorage._cleanup_old_accounts: remove every account with
now - created_at > 24h (keep the others). -/
def memCleanup (s : MemStore) (now : Nat) : MemStore :=
  ⟨s.accounts.filter (fun e => now - e.2.created_at ≤ DAY)⟩

/-- TempMailStorage.add_account: stamp created_at, store under the email
key, run the cleanup sweep, return True. -/
def mem_add_account (s : MemStore) (email : String) (d : AccountData)
    (now : Nat) : Bool × MemStore :=
  (true, memCleanup ⟨dictSet s.accounts email ⟨d, now⟩⟩ now)

/-- TempMailStorage.remove_account: delete the key when present. -/
def mem_remove_account (s : MemStore) (email : String) : Bool × MemStore :=
  if s.accounts.any (fun e => e.1 == email) then
    (true, ⟨s.accounts.eraseP (fun e => e.1 == email)⟩)
  else
    (false, s)

/-- TempMailStorage.get_account: lookup; an expired hit is removed and
reported as not found. -/
def mem_get_account (s : MemStore) (email : String) (now : Nat) :
    Option MemAccount × MemStore :=
  match s.accounts.find? (fun e => e.1 == email) with
  | none => (none, s)
  | some e =>
      if DAY < now - e.2.created_at then
        (none, (mem_remove_account s email).2)
      else
        (some e.2, s)

/-- The empty in-memory store. -/
def emptyMem : MemStore := ⟨[]⟩

/-! Concrete states used by witnesses and counterexamples. -/

/-- An active account row created at time 0. -/
def activeRow : TempEmailRow :=
  ⟨1, "a@x.com", "acc", "tok", "pw", "mail_tm", 0, true⟩

/-- The same account row already soft-deleted. -/
def inactiveRow : TempEmailRow :=
  ⟨1, "a@x.com", "acc", "tok", "pw", "mail_tm", 0, false⟩

/-- A stored message row owned by account 1. -/
def msgRow : EmailRow :=
  ⟨1, "m1", 1, "s@y.com", "a@x.com", some "hi", none, none, none, false, 5⟩

/-- Database holding one active account and no messages. -/
def dbActive : DB := ⟨[activeRow], [], 2, 1⟩

/-- Database holding one active account and one stored message. -/
def dbWithMsg : DB := ⟨[activeRow], [msgRow], 2, 2⟩

/-- Database holding one inactive account and one stored message. -/
def dbInactiveMsg : DB := ⟨[inactiveRow], [msgRow], 2, 2⟩

/-- Provider message dict with the same messageId as msgRow but seen set,
used to exercise the upsert-merge path. -/
def mergeData : EmailData :=
  ⟨some "m1", some "s@y.com", some "other", none, none, none, true, some 7⟩

/-- Provider message dict with a fresh messageId and no createdAt field. -/
def badEmailData : EmailData :=
  ⟨some "m9", some "s@y.com", none, none, none, none, false, none⟩

theorem updateCounts_same (f : String → String → List Bucket)
    (ip endpoint : String) (v : List Bucket) :
    updateCounts f ip endpoint v ip endpoint = v := by
  simp [updateCounts]

theorem checkRateLimit_counts (rl : RateLimiter) (ip endpoint : String)
    (now : Nat) :
    (checkRateLimit rl ip endpoint now).2.requestCounts ip endpoint =
      (stepList (rateLimits endpoint).1 ((rateLimits endpoint).2 * MICROS)
        (rl.requestCounts ip endpoint) now).2 := by
  simp [checkRateLimit, updateCounts_same]

theorem checkRateLimit_fst (rl : RateLimiter) (ip endpoint : String)
    (now : Nat) :
    (checkRateLimit rl ip endpoint now).1 =
      (stepList (rateLimits endpoint).1 ((rateLimits endpoint).2 * MICROS)
        (rl.requestCounts ip endpoint) now).1 := rfl

theorem runCalls_eq_runList (ip endpoint : String) (times : List Nat) :
    ∀ rl : RateLimiter,
      (runCalls rl ip endpoint times).1 =
        (runList (rateLimits endpoint).1 ((rateLimits endpoint).2 * MICROS)
          (rl.requestCounts ip endpoint) times).1 := by
  induction times with
  | nil => intro rl; rfl
  | cons t ts ih =>
      intro rl
      simp only [runCalls, runList]
      refine congrArg₂ List.cons (checkRateLimit_fst rl ip endpoint t) ?_
      rw [ih, checkRateLimit_counts]

theorem rateLimits_window (endpoint : String) : (rateLimits endpoint).2 = 60 := by
  unfold rateLimits
  repeat' split
  all_goals rfl

theorem cleanup_eq_self (l : List Bucket) (now window : Nat)
    (h : ∀ b ∈ l, now - b.timestamp < window) :
    cleanupOldRequests l now window = l := by
  unfold cleanupOldRequests
  exact List.filter_eq_self.mpr (fun b hb => by simpa using h b hb)

theorem recent_eq_totalCount (l : List Bucket) (now window : Nat)
    (h : ∀ b ∈ l, now - b.timestamp < window) :
    recentRequests l now window = totalCount l := by
  unfold recentRequests totalCount
  rw [List.filter_eq_self.mpr (fun b hb => by simpa using h b hb)]

theorem totalCount_append (l₁ l₂ : List Bucket) :
    totalCount (l₁ ++ l₂) = totalCount l₁ + totalCount l₂ := by
  simp [totalCount]

theorem totalCount_addRequest (l : List Bucket) (t : Nat) :
    totalCount (addRequest l t) = totalCount l + 1 := by
  rcases List.eq_nil_or_concat' l with rfl | ⟨xs, x, rfl⟩
  · simp [addRequest, totalCount]
  · simp only [addRequest, List.getLast?_concat, List.dropLast_concat]
    split
    · simp [totalCount_append, totalCount]
      omega
    · simp [totalCount_append, totalCount]
      omega

theorem addRequest_timestamp_bound (l : List Bucket) (t : Nat) (P : Nat → Prop)
    (hl : ∀ b ∈ l, P b.timestamp) (ht : P t) :
    ∀ b ∈ addRequest l t, P b.timestamp := by
  rcases List.eq_nil_or_concat' l with rfl | ⟨xs, x, rfl⟩
  · simpa [addRequest] using ht
  · simp only [addRequest, List.getLast?_concat, List.dropLast_concat]
    split
    · intro b hb
      rcases List.mem_append.mp hb with h | h
      · exact hl b (List.mem_append.mpr (Or.inl h))
      · simp only [List.mem_singleton] at h
        subst h
        exact hl x (List.mem_append.mpr (Or.inr (List.mem_singleton.mpr rfl)))
    · intro b hb
      rcases List.mem_append.mp hb with h | h
      · exact hl b h
      · simp only [List.mem_singleton] at h
        subst h
        exact ht

theorem pairwise_span (l : List Bucket) (now lo : Nat)
    (hp : List.Pairwise BucketLt l)
    (hb : ∀ b ∈ l, lo ≤ b.timestamp ∧ b.timestamp ≤ now)
    (hlo : lo ≤ now + MICROS) :
    lo + l.length * MICROS ≤ now + MICROS := by
  induction l generalizing lo with
  | nil => simpa using hlo
  | cons c rest ih =>
      rcases List.pairwise_cons.mp hp with ⟨hc, hrest⟩
      have hcb := hb c (List.mem_cons_self c rest)
      have step := ih (c.timestamp + MICROS) hrest
        (fun b hbm => ⟨hc b hbm, (hb b (List.mem_cons_of_mem c hbm)).2⟩)
        (by omega)
      have hlc : lo ≤ c.timestamp := hcb.1
      simp only [List.length_cons]
      have hm : (rest.length + 1) * MICROS = rest.length * MICROS + MICROS := by
        ring
      omega

theorem pairwise_length_bound (l : List Bucket) (now w : Nat)
    (hp : List.Pairwise BucketLt l)
    (hb : ∀ b ∈ l, b.timestamp ≤ now ∧ now - b.timestamp < w * MICROS) :
    l.length ≤ w := by
  cases l with
  | nil => simp
  | cons c rest =>
      rcases List.pairwise_cons.mp hp with ⟨hc, hrest⟩
      have hcb := hb c (List.mem_cons_self c rest)
      have span := pairwise_span (c :: rest) now c.timestamp
        (List.pairwise_cons.mpr ⟨hc, hrest⟩)
        (fun b hbm => by
          rcases List.mem_cons.mp hbm with rfl | hm
          · exact ⟨le_refl _, (hb b hbm).1⟩
          · exact ⟨by have := hc b hm; unfold BucketLt at this; omega,
              (hb b hbm).1⟩)
        (by omega)
      simp only [List.length_cons] at *
      have hM : MICROS = 1000000 := rfl
      rw [hM] at span
      have hwin := hcb.2
      rw [hM] at hwin
      by_contra hlen
      push_neg at hlen
      have : (w + 1) * 1000000 ≤ (rest.length + 1) * 1000000 :=
        Nat.mul_le_mul_right _ (by omega)
      omega

theorem addRequest_pairwise (l : List Bucket) (now : Nat)
    (hp : List.Pairwise BucketLt l)
    (hb : ∀ b ∈ l, b.timestamp ≤ now) :
    List.Pairwise BucketLt (addRequest l now) := by
  rcases List.eq_nil_or_concat' l with rfl | ⟨xs, x, rfl⟩
  · simp [addRequest]
  · simp only [addRequest, List.getLast?_concat, List.dropLast_concat]
    rcases List.pairwise_append.mp hp with ⟨p1, _, h12⟩
    split
    · refine List.pairwise_append.mpr ⟨p1, List.pairwise_singleton _ _, ?_⟩
      intro a ha b hbm
      simp only [List.mem_singleton] at hbm
      subst hbm
      exact h12 a ha x (List.mem_singleton.mpr rfl)
    · refine List.pairwise_append.mpr ⟨hp, List.pairwise_singleton _ _, ?_⟩
      intro a ha b hbm
      simp only [List.mem_singleton] at hbm
      subst hbm
      show a.timestamp + MICROS ≤ now
      have hxnow : x.timestamp ≤ now :=
        hb x (List.mem_append.mpr (Or.inr (List.mem_singleton.mpr rfl)))
      rcases List.mem_append.mp ha with hxs | hlast
      · have := h12 a hxs x (List.mem_singleton.mpr rfl)
        unfold BucketLt at this
        omega
      · simp only [List.mem_singleton] at hlast
        subst hlast
        omega

theorem addRequest_length (l : List Bucket) (now : Nat) :
    (addRequest l now).length ≤ l.length + 1 := by
  rcases List.eq_nil_or_concat' l with rfl | ⟨xs, x, rfl⟩
  · simp [addRequest]
  · simp only [addRequest, List.getLast?_concat, List.dropLast_concat]
    split
    · simp
    · simp

/-- C5: whenever check_rate_limit computes recent at or above the quota, it
returns false and records nothing: the stored bucket list for (ip, endpoint)
is a sublist of the previous one (no bucket added, no count incremented). -/
theorem check_rate_limit_reject_no_record (rl : RateLimiter)
    (ip endpoint : String) (now : Nat)
    (h : (rateLimits endpoint).1 ≤
      recentRequests
        (cleanupOldRequests (rl.requestCounts ip endpoint) now
          ((rateLimits endpoint).2 * MICROS))
        now ((rateLimits endpoint).2 * MICROS)) :
    (checkRateLimit rl ip endpoint now).1 = false ∧
    ((checkRateLimit rl ip endpoint now).2.requestCounts ip endpoint).Sublist
      (rl.requestCounts ip endpoint) := by
  constructor
  · rw [checkRateLimit_fst]
    unfold stepList
    simp only []
    rw [if_pos h]
  · rw [checkRateLimit_counts]
    unfold stepList
    simp only []
    rw [if_pos h]
    exact List.filter_sublist _

/-- Witness for C5 at a concrete saturated state. -/
theorem check_rate_limit_reject_no_record_witness :
    ((rateLimits "generate_email").1 ≤
      recentRequests
        (cleanupOldRequests (saturatedLimiter.requestCounts "1.2.3.4"
            "generate_email") 0 ((rateLimits "generate_email").2 * MICROS))
        0 ((rateLimits "generate_email").2 * MICROS)) ∧
    ((checkRateLimit saturatedLimiter "1.2.3.4" "generate_email" 0).1 = false ∧
    ((checkRateLimit saturatedLimiter "1.2.3.4" "generate_email"
        0).2.requestCounts "1.2.3.4" "generate_email").Sublist
      (saturatedLimiter.requestCounts "1.2.3.4" "generate_email")) :=
  ⟨by decide,
    check_rate_limit_reject_no_record saturatedLimiter "1.2.3.4"
      "generate_email" 0 (by decide)⟩

/-- C10: a check_rate_limit call preserves the bucket-list shape invariant
for its (ip, endpoint) key: timestamps strictly ascending and at least one
second apart, every bucket within the window of the call's now, and hence at
most windowSeconds + 1 buckets. -/
theorem check_rate_limit_bucket_invariant (rl : RateLimiter)
    (ip endpoint : String) (now : Nat)
    (hp : List.Pairwise BucketLt (rl.requestCounts ip endpoint))
    (hle : ∀ b ∈ rl.requestCounts ip endpoint, b.timestamp ≤ now) :
    List.Pairwise BucketLt
      ((checkRateLimit rl ip endpoint now).2.requestCounts ip endpoint) ∧
    (∀ b ∈ (checkRateLimit rl ip endpoint now).2.requestCounts ip endpoint,
        now - b.timestamp < (rateLimits endpoint).2 * MICROS ∧
        b.timestamp ≤ now) ∧
    ((checkRateLimit rl ip endpoint now).2.requestCounts ip endpoint).length ≤
      (rateLimits endpoint).2 + 1 := by
  rw [checkRateLimit_counts]
  unfold stepList
  simp only []
  have hWpos : 0 < (rateLimits endpoint).2 * MICROS := by
    rw [rateLimits_window]
    decide
  have cleanedP : List.Pairwise BucketLt
      (cleanupOldRequests (rl.requestCounts ip endpoint) now
        ((rateLimits endpoint).2 * MICROS)) :=
    List.Pairwise.sublist (List.filter_sublist _) hp
  have cleanedB : ∀ b ∈ cleanupOldRequests (rl.requestCounts ip endpoint) now
      ((rateLimits endpoint).2 * MICROS),
      now - b.timestamp < (rateLimits endpoint).2 * MICROS ∧
      b.timestamp ≤ now := by
    intro b hbm
    unfold cleanupOldRequests at hbm
    rw [List.mem_filter] at hbm
    exact ⟨by simpa using hbm.2, hle b hbm.1⟩
  have cleanedL : (cleanupOldRequests (rl.requestCounts ip endpoint) now
      ((rateLimits endpoint).2 * MICROS)).length ≤ (rateLimits endpoint).2 :=
    pairwise_length_bound _ now _ cleanedP
      (fun b hbm => ⟨(cleanedB b hbm).2, (cleanedB b hbm).1⟩)
  split
  · exact ⟨cleanedP, cleanedB, le_trans cleanedL (Nat.le_succ _)⟩
  · refine ⟨addRequest_pairwise _ now cleanedP
      (fun b hbm => (cleanedB b hbm).2), ?_, ?_⟩
    · exact addRequest_timestamp_bound _ now
        (fun ts => now - ts < (rateLimits endpoint).2 * MICROS ∧ ts ≤ now)
        cleanedB ⟨by omega, le_refl now⟩
    · exact le_trans (addRequest_length _ now)
        (Nat.add_le_add_right cleanedL 1)

/-- Witness for C10 at a concrete state and call time. -/
theorem check_rate_limit_bucket_invariant_witness :
    (List.Pairwise BucketLt
      (singleBucketLimiter.requestCounts "1.2.3.4" "get_emails") ∧
     ∀ b ∈ singleBucketLimiter.requestCounts "1.2.3.4" "get_emails",
        b.timestamp ≤ 2000000) ∧
    (List.Pairwise BucketLt
      ((checkRateLimit singleBucketLimiter "1.2.3.4" "get_emails"
          2000000).2.requestCounts "1.2.3.4" "get_emails") ∧
    (∀ b ∈ (checkRateLimit singleBucketLimiter "1.2.3.4" "get_emails"
          2000000).2.requestCounts "1.2.3.4" "get_emails",
        2000000 - b.timestamp < (rateLimits "get_emails").2 * MICROS ∧
        b.timestamp ≤ 2000000) ∧
    ((checkRateLimit singleBucketLimiter "1.2.3.4" "get_emails"
        2000000).2.requestCounts "1.2.3.4" "get_emails").length ≤
      (rateLimits "get_emails").2 + 1) :=
  ⟨⟨by decide, by decide⟩,
    check_rate_limit_bucket_invariant singleBucketLimiter "1.2.3.4"
      "get_emails" 2000000 (by decide) (by decide)⟩

theorem runList_append (maxR W : Nat) (xs ys : List Nat) :
    ∀ l : List Bucket,
      (runList maxR W l (xs ++ ys)).1 =
        (runList maxR W l xs).1 ++
          (runList maxR W (runList maxR W l xs).2 ys).1 ∧
      (runList maxR W l (xs ++ ys)).2 =
        (runList maxR W (runList maxR W l xs).2 ys).2 := by
  induction xs with
  | nil => intro l; simp [runList]
  | cons x xs ih =>
      intro l
      simp only [List.cons_append, runList, List.append_eq]
      exact ⟨by rw [(ih _).1], (ih _).2⟩

theorem stepList_admit (maxR W : Nat) (l : List Bucket) (t lo : Nat)
    (hbound : ∀ b ∈ l, lo ≤ b.timestamp)
    (hwin : t - lo < W)
    (hlt : totalCount l < maxR) :
    stepList maxR W l t = (true, addRequest l t) := by
  have hall : ∀ b ∈ l, t - b.timestamp < W := fun b hb =>
    lt_of_le_of_lt (Nat.sub_le_sub_left (hbound b hb) t) hwin
  unfold stepList
  simp only []
  rw [cleanup_eq_self l t W hall, recent_eq_totalCount l t W hall,
    if_neg (by omega)]

theorem stepList_reject (maxR W : Nat) (l : List Bucket) (t lo : Nat)
    (hbound : ∀ b ∈ l, lo ≤ b.timestamp)
    (hwin : t - lo < W)
    (hge : maxR ≤ totalCount l) :
    stepList maxR W l t = (false, l) := by
  have hall : ∀ b ∈ l, t - b.timestamp < W := fun b hb =>
    lt_of_le_of_lt (Nat.sub_le_sub_left (hbound b hb) t) hwin
  unfold stepList
  simp only []
  rw [cleanup_eq_self l t W hall, recent_eq_totalCount l t W hall, if_pos hge]

theorem runList_all_true :
    ∀ (times : List Nat) (l : List Bucket) (k lo hi maxR W : Nat),
      (∀ b ∈ l, lo ≤ b.timestamp ∧ b.timestamp ≤ hi) →
      totalCount l = k →
      k + times.length ≤ maxR →
      List.Pairwise (fun a b : Nat => a ≤ b) times →
      (∀ t ∈ times, hi ≤ t ∧ t - lo < W) →
      lo ≤ hi →
      (runList maxR W l times).1 = List.replicate times.length true ∧
      totalCount (runList maxR W l times).2 = k + times.length ∧
      (∀ b ∈ (runList maxR W l times).2, lo ≤ b.timestamp) := by
  intro times
  induction times with
  | nil =>
      intro l k lo hi maxR W hbound hcount _ _ _ _
      exact ⟨rfl, by simpa using hcount,
        fun b hb => (hbound b hb).1⟩
  | cons t ts ih =>
      intro l k lo hi maxR W hbound hcount hquota hsort hwin hlohi
      have hhit := hwin t (List.mem_cons_self t ts)
      have hlot : lo ≤ t := le_trans hlohi hhit.1
      have hstep := stepList_admit maxR W l t lo
        (fun b hb => (hbound b hb).1) hhit.2
        (by simp only [List.length_cons] at hquota; omega)
      have hbound' : ∀ b ∈ addRequest l t,
          lo ≤ b.timestamp ∧ b.timestamp ≤ t :=
        addRequest_timestamp_bound l t (fun ts' => lo ≤ ts' ∧ ts' ≤ t)
          (fun b hb => ⟨(hbound b hb).1, le_trans (hbound b hb).2 hhit.1⟩)
          ⟨hlot, le_refl t⟩
      rcases List.pairwise_cons.mp hsort with ⟨hhead, htail⟩
      have hrec := ih (addRequest l t) (k + 1) lo t maxR W hbound'
        (by rw [totalCount_addRequest, hcount])
        (by simp only [List.length_cons] at hquota; omega)
        htail
        (fun t' ht' => ⟨hhead t' ht', (hwin t' (List.mem_cons_of_mem t ht')).2⟩)
        hlot
      simp only [runList, hstep]
      refine ⟨?_, ?_, hrec.2.2⟩
      · rw [hrec.1]
        simp [List.replicate_succ]
      · rw [hrec.2.1]
        simp only [List.length_cons]
        omega

theorem runList_all_false :
    ∀ (times : List Nat) (l : List Bucket) (lo maxR W : Nat),
      (∀ b ∈ l, lo ≤ b.timestamp) →
      maxR ≤ totalCount l →
      (∀ t ∈ times, t - lo < W) →
      (runList maxR W l times).1 = List.replicate times.length false := by
  intro times
  induction times with
  | nil => intro l lo maxR W _ _ _; rfl
  | cons t ts ih =>
      intro l lo maxR W hbound hge hwin
      have hstep := stepList_reject maxR W l t lo hbound
        (hwin t (List.mem_cons_self t ts)) hge
      simp only [runList, hstep]
      rw [ih l lo maxR W hbound hge
        (fun t' ht' => hwin t' (List.mem_cons_of_mem t ht'))]
      simp [List.replicate_succ]

/-- C1: starting from a fresh limiter, for any client and endpoint with quota
(m, w), m check_rate_limit calls whose times all lie within one w-second
window return true every time, and the (m+1)-th call in the same window
returns false. -/
theorem rate_limit_quota (ip endpoint : String) (times : List Nat) (lo : Nat)
    (hlen : times.length = (rateLimits endpoint).1 + 1)
    (hsort : List.Pairwise (fun a b : Nat => a ≤ b) times)
    (hwin : ∀ t ∈ times,
      lo ≤ t ∧ t - lo < (rateLimits endpoint).2 * MICROS) :
    (runCalls initialRateLimiter ip endpoint times).1 =
      List.replicate (rateLimits endpoint).1 true ++ [false] := by
  rw [runCalls_eq_runList]
  have hinit : initialRateLimiter.requestCounts ip endpoint = [] := rfl
  rw [hinit]
  set m := (rateLimits endpoint).1 with hm
  set W := (rateLimits endpoint).2 * MICROS with hW
  have hsplit := (List.take_append_drop m times).symm
  have hlt : (times.take m).length = m := by
    rw [List.length_take]; omega
  have hld : (times.drop m).length = 1 := by
    rw [List.length_drop]; omega
  have phase1 := runList_all_true (times.take m) [] 0 lo lo m W
    (fun b hb => absurd hb (List.not_mem_nil b))
    rfl
    (by rw [hlt]; omega)
    (List.Pairwise.sublist (List.take_sublist m times) hsort)
    (fun t ht => hwin t ((List.take_sublist m times).subset ht))
    (le_refl lo)
  have phase2 := runList_all_false (times.drop m)
    (runList m W [] (times.take m)).2 lo m W
    phase1.2.2
    (by rw [phase1.2.1, hlt]; omega)
    (fun t ht => (hwin t ((List.drop_sublist m times).subset ht)).2)
  calc (runList m W [] times).1
      = (runList m W [] (times.take m ++ times.drop m)).1 := by rw [← hsplit]
    _ = (runList m W [] (times.take m)).1 ++
          (runList m W (runList m W [] (times.take m)).2 (times.drop m)).1 :=
        (runList_append m W (times.take m) (times.drop m) []).1
    _ = List.replicate m true ++ [false] := by
        rw [phase1.1, phase2, hlt, hld]
        rfl

/-- Witness for C1: six calls to generate_email (quota 5 per 60 s) at time
zero yield five true results and then false. -/
theorem rate_limit_quota_witness :
    (([0, 0, 0, 0, 0, 0] : List Nat).length =
        (rateLimits "generate_email").1 + 1) ∧
    (List.Pairwise (fun a b : Nat => a ≤ b) ([0, 0, 0, 0, 0, 0] : List Nat)) ∧
    (∀ t ∈ ([0, 0, 0, 0, 0, 0] : List Nat),
      0 ≤ t ∧ t - 0 < (rateLimits "generate_email").2 * MICROS) ∧
    (runCalls initialRateLimiter "1.2.3.4" "generate_email"
        [0, 0, 0, 0, 0, 0]).1 =
      List.replicate (rateLimits "generate_email").1 true ++ [false] :=
  ⟨by decide, by decide, by decide,
    rate_limit_quota "1.2.3.4" "generate_email" [0, 0, 0, 0, 0, 0] 0
      (by decide) (by decide) (by decide)⟩

theorem findActiveAccount_eq_none (db : DB) (e : String)
    (h : ∀ r ∈ db.tempEmails, r.email = e → r.is_active = false) :
    findActiveAccount db e = none := by
  unfold findActiveAccount
  rw [List.find?_eq_none]
  intro x hx hpx
  simp only [Bool.and_eq_true, beq_iff_eq] at hpx
  have := h x hx hpx.1
  rw [this] at hpx
  exact Bool.false_ne_true hpx.2

theorem updateFirst_email_inactive (e : String) :
    ∀ l : List TempEmailRow, (l.map TempEmailRow.email).Nodup →
      ∀ r2 ∈ updateFirst (fun r => r.email == e)
          (fun r => { r with is_active := false }) l,
        r2.email = e → r2.is_active = false := by
  intro l
  induction l with
  | nil => intro _ r2 h; exact absurd h (List.not_mem_nil r2)
  | cons r rs ih =>
      intro hnodup r2 hr2 he2
      simp only [List.map_cons, List.nodup_cons] at hnodup
      simp only [updateFirst] at hr2
      by_cases hp : r.email = e
      · rw [if_pos (by simpa using hp)] at hr2
        rcases List.mem_cons.mp hr2 with rfl | hmem
        · rfl
        · exact absurd (List.mem_map.mpr ⟨r2, hmem, by rw [he2, hp]⟩)
            hnodup.1
      · rw [if_neg (by simpa using hp)] at hr2
        rcases List.mem_cons.mp hr2 with rfl | hmem
        · exact absurd he2 hp
        · exact ih hnodup.2 r2 hmem he2

theorem remove_account_all_inactive (db : DB) (e : String)
    (hnodup : (db.tempEmails.map TempEmailRow.email).Nodup) :
    ∀ r2 ∈ (remove_account db e).2.tempEmails,
      r2.email = e → r2.is_active = false := by
  unfold remove_account
  cases hf : db.tempEmails.find? (fun r => r.email == e) with
  | none =>
      intro r2 h2 he2
      have := List.find?_eq_none.mp hf r2 h2
      simp only [beq_iff_eq] at this
      exact absurd he2 this
  | some r =>
      exact updateFirst_email_inactive e db.tempEmails hnodup

/-- C4: add_account for an email that already has an active record fails and
leaves the database unchanged (the unique index on email rejects the
insert). -/
theorem add_account_duplicate (db : DB) (email : String) (d : AccountData)
    (now : Nat)
    (h : ∃ r ∈ db.tempEmails, r.email = email ∧ r.is_active = true) :
    add_account db email d now = (false, db) := by
  obtain ⟨r, hr, he, _⟩ := h
  have hany : (db.tempEmails.any fun r => r.email == email) = true :=
    List.any_eq_true.mpr ⟨r, hr, by simp [he]⟩
  unfold add_account
  rw [hany]
  rfl

/-- Witness for C4 at a concrete database with an active record. -/
theorem add_account_duplicate_witness :
    (∃ r ∈ dbActive.tempEmails, r.email = "a@x.com" ∧ r.is_active = true) ∧
    add_account dbActive "a@x.com" ⟨"x", "y", "z"⟩ 5 = (false, dbActive) :=
  ⟨by decide, add_account_duplicate dbActive "a@x.com" ⟨"x", "y", "z"⟩ 5
    (by decide)⟩

/-- C6 (amended): message reads are gated only by the is_active flag, not by
age: when every record for an owner is inactive, get_emails returns the
empty list and get_email returns not-found. -/
theorem message_reads_gated_by_is_active (db : DB) (owner mid : String)
    (h : ∀ r ∈ db.tempEmails, r.email = owner → r.is_active = false) :
    get_emails db owner = [] ∧ get_email db owner mid = none := by
  have hfa := findActiveAccount_eq_none db owner h
  unfold get_emails get_email
  rw [hfa]
  exact ⟨rfl, rfl⟩

/-- Witness for the amended C6 at a concrete inactive account. -/
theorem message_reads_gated_by_is_active_witness :
    (∀ r ∈ dbInactiveMsg.tempEmails, r.email = "a@x.com" →
        r.is_active = false) ∧
    (get_emails dbInactiveMsg "a@x.com" = [] ∧
      get_email dbInactiveMsg "a@x.com" "m1" = none) :=
  ⟨by decide,
    message_reads_gated_by_is_active dbInactiveMsg "a@x.com" "m1" (by decide)⟩

/-- Counterexample to C6 as stated: an account 1000000 seconds old (well
past 24 hours) that no sweep has marked inactive still serves its stored
message through get_emails and get_email. -/
theorem expired_account_still_serves_messages :
    DAY < 1000000 - activeRow.created_at ∧
    activeRow ∈ dbWithMsg.tempEmails ∧ activeRow.is_active = true ∧
    get_emails dbWithMsg "a@x.com" = [toSummary msgRow] ∧
    get_email dbWithMsg "a@x.com" "m1" = some (toContent msgRow) := by
  refine ⟨by decide, by decide, by decide, ?_, by decide⟩
  unfold get_emails
  rw [show findActiveAccount dbWithMsg "a@x.com" = some activeRow by decide]
  dsimp only
  rw [show dbWithMsg.emails.filter
      (fun r => r.temp_email_id == activeRow.id) = [msgRow] by decide]
  rw [List.mergeSort_singleton]
  rfl

/-- C7: after remove_account succeeds for an existing account, get_emails
for that owner returns the empty sequence (the messages are hidden). -/
theorem remove_account_hides_emails (db : DB) (owner : String)
    (hnodup : (db.tempEmails.map TempEmailRow.email).Nodup)
    (_hsucc : (remove_account db owner).1 = true) :
    get_emails (remove_account db owner).2 owner = [] := by
  have hall := remove_account_all_inactive db owner hnodup
  unfold get_emails
  rw [findActiveAccount_eq_none _ _ hall]

/-- Witness for C7 at a concrete database with one account and one
message. -/
theorem remove_account_hides_emails_witness :
    (dbWithMsg.tempEmails.map TempEmailRow.email).Nodup ∧
    (remove_account dbWithMsg "a@x.com").1 = true ∧
    get_emails (remove_account dbWithMsg "a@x.com").2 "a@x.com" = [] :=
  ⟨by decide, by decide,
    remove_account_hides_emails dbWithMsg "a@x.com" (by decide) (by decide)⟩

/-- C8 (amended): save_email is the only core method with an escape path,
and the exception escapes exactly when the message is new (active owner
found, no stored row with that messageId) and its createdAt field is
missing or unparseable; every other input returns an explicit result. -/
theorem save_email_raises_iff (db : DB) (owner : String) (d : EmailData) :
    save_email db owner d = none ↔
      ∃ acc, findActiveAccount db owner = some acc ∧
        findEmailByData db d.id acc.id = none ∧ d.createdAt = none := by
  unfold save_email
  cases hfa : findActiveAccount db owner with
  | none =>
      dsimp only
      refine iff_of_false (fun h => Option.noConfusion h) ?_
      rintro ⟨acc', hacc', _, _⟩
      exact Option.noConfusion hacc'
  | some acc =>
      dsimp only
      cases hex : findEmailByData db d.id acc.id with
      | some ex =>
          dsimp only
          refine iff_of_false ?_ ?_
          · intro h
            split at h
            all_goals exact Option.noConfusion h
          · rintro ⟨acc', hacc', hex', _⟩
            obtain rfl : acc = acc' := by injection hacc'
            rw [hex] at hex'
            exact Option.noConfusion hex'
      | none =>
          dsimp only
          cases hca : d.createdAt with
          | none =>
              dsimp only
              exact iff_of_true rfl ⟨acc, rfl, hex, rfl⟩
          | some ts =>
              dsimp only
              refine iff_of_false ?_ ?_
              · cases hid : d.id with
                | none =>
                    cases hfrom : d.fromAddress with
                    | none => exact fun h => Option.noConfusion h
                    | some sender => exact fun h => Option.noConfusion h
                | some mid =>
                    cases hfrom : d.fromAddress with
                    | none => exact fun h => Option.noConfusion h
                    | some sender => exact fun h => Option.noConfusion h
              · rintro ⟨acc', _, _, h3⟩
                exact Option.noConfusion h3

/-- Counterexample to C8 as stated: saving a fresh message whose dict lacks
the createdAt field lets the exception escape save_email (modelled as the
none result) instead of returning an explicit success or failure value. -/
theorem save_email_escapes_exception :
    save_email dbActive "a@x.com" badEmailData = none := by decide

/-- C2: get_account returns data only for an active, unexpired record; an
expired hit is marked inactive as a side effect and reported not-found, and
every later get_account call for that email is also not-found and leaves the
state unchanged. -/
theorem get_account_expiry (db : DB) (email : String) (now now2 : Nat)
    (hnodup : (db.tempEmails.map TempEmailRow.email).Nodup) :
    (∀ a db2, get_account db email now = (some a, db2) →
      db2 = db ∧ ∃ r, findActiveAccount db email = some r ∧
        ¬ DAY < now - r.created_at ∧ a = accountDict r) ∧
    (∀ r, findActiveAccount db email = some r → DAY < now - r.created_at →
      (get_account db email now).1 = none ∧
      (∀ r2 ∈ (get_account db email now).2.tempEmails,
          r2.email = email → r2.is_active = false) ∧
      get_account (get_account db email now).2 email now2 =
        (none, (get_account db email now).2)) := by
  constructor
  · intro a db2 h
    unfold get_account at h
    cases hfa : findActiveAccount db email with
    | none =>
        rw [hfa] at h
        exact absurd h (by simp)
    | some r =>
        rw [hfa] at h
        dsimp only at h
        by_cases hexp : isExpired r now = true
        · rw [if_pos hexp] at h
          exact absurd h (by simp)
        · rw [if_neg hexp] at h
          simp only [Prod.mk.injEq, Option.some.injEq] at h
          exact ⟨h.2.symm, r, rfl, by simpa [isExpired] using hexp, h.1.symm⟩
  · intro r hfa hexp
    have hmain : get_account db email now =
        (none, (remove_account db email).2) := by
      unfold get_account
      rw [hfa]
      dsimp only
      rw [if_pos (by simpa [isExpired] using hexp)]
    have hall := remove_account_all_inactive db email hnodup
    have hnone : findActiveAccount (remove_account db email).2 email = none :=
      findActiveAccount_eq_none _ _ hall
    refine ⟨by rw [hmain], by rw [hmain]; exact hall, ?_⟩
    rw [hmain]
    unfold get_account
    rw [hnone]

/-- Witness for C2: an account created at time 0 queried at time 1000000
(past the 24 hour horizon). -/
theorem get_account_expiry_witness :
    (dbActive.tempEmails.map TempEmailRow.email).Nodup ∧
    findActiveAccount dbActive "a@x.com" = some activeRow ∧
    DAY < 1000000 - activeRow.created_at ∧
    ((get_account dbActive "a@x.com" 1000000).1 = none ∧
     (∀ r2 ∈ (get_account dbActive "a@x.com" 1000000).2.tempEmails,
        r2.email = "a@x.com" → r2.is_active = false) ∧
     get_account (get_account dbActive "a@x.com" 1000000).2 "a@x.com" 5 =
       (none, (get_account dbActive "a@x.com" 1000000).2)) :=
  ⟨by decide, by decide, by decide,
    (get_account_expiry dbActive "a@x.com" 1000000 5 (by decide)).2 activeRow
      (by decide) (by decide)⟩

theorem updateFirst_forall₂ (p : α → Bool) (f : α → α) (R : α → α → Prop)
    (hrefl : ∀ a, R a a) (hf : ∀ a, R a (f a)) :
    ∀ l : List α, List.Forall₂ R l (updateFirst p f l) := by
  intro l
  induction l with
  | nil => exact List.Forall₂.nil
  | cons x xs ih =>
      simp only [updateFirst]
      split
      · exact List.Forall₂.cons (hf x)
          (List.forall₂_same.mpr (fun a _ => hrefl a))
      · exact List.Forall₂.cons (hrefl x) ih

theorem updateFirst_find? (p : α → Bool) (f : α → α)
    (hp : ∀ a, p a = true → p (f a) = true) :
    ∀ l : List α, (updateFirst p f l).find? p = (l.find? p).map f := by
  intro l
  induction l with
  | nil => rfl
  | cons x xs ih =>
      simp only [updateFirst]
      by_cases hx : p x = true
      · rw [if_pos hx, List.find?_cons_of_pos _ (hp x hx),
          List.find?_cons_of_pos _ hx]
        rfl
      · rw [if_neg hx, List.find?_cons_of_neg _ (by simpa using hx),
          List.find?_cons_of_neg _ (by simpa using hx), ih]

/-- C3: saving a message whose messageId already exists under the same owner
succeeds and changes at most the stored isRead flag (set to the incoming
seen value); every other stored field of every row is untouched, and when
the seen value matches the stored flag the database is unchanged. -/
theorem save_email_merge (db : DB) (owner : String) (d : EmailData)
    (acc : TempEmailRow) (ex : EmailRow)
    (hacc : findActiveAccount db owner = some acc)
    (hex : findEmailByData db d.id acc.id = some ex) :
    ∃ db2,
      save_email db owner d = some (true, db2) ∧
      db2.tempEmails = db.tempEmails ∧
      db2.nextTempId = db.nextTempId ∧
      db2.nextEmailId = db.nextEmailId ∧
      List.Forall₂ (fun r r' : EmailRow =>
        ({ r with is_read := false } : EmailRow) =
          { r' with is_read := false }) db.emails db2.emails ∧
      findEmailByData db2 d.id acc.id = some { ex with is_read := d.seen } ∧
      (d.seen = ex.is_read → db2 = db) := by
  unfold save_email
  rw [hacc]
  dsimp only
  rw [hex]
  dsimp only
  by_cases hrd : (ex.is_read != d.seen) = true
  · rw [if_pos hrd]
    refine ⟨_, rfl, rfl, rfl, rfl, ?_, ?_, ?_⟩
    · exact updateFirst_forall₂
        (fun r => d.id == some r.message_id && r.temp_email_id == acc.id)
        (fun r => { r with is_read := d.seen })
        (fun r r' => ({ r with is_read := false } : EmailRow) =
          { r' with is_read := false })
        (fun a => rfl) (fun a => rfl) db.emails
    · unfold findEmailByData
      dsimp only
      rw [updateFirst_find?
        (fun r => d.id == some r.message_id && r.temp_email_id == acc.id)
        (fun r => { r with is_read := d.seen })
        (fun a ha => ha) db.emails]
      unfold findEmailByData at hex
      rw [hex]
      rfl
    · intro hseen
      exact absurd hseen.symm (by simpa using hrd)
  · rw [if_neg hrd]
    have heq : ex.is_read = d.seen := by simpa using hrd
    refine ⟨db, rfl, rfl, rfl, rfl,
      List.forall₂_same.mpr (fun a _ => rfl), ?_, fun _ => rfl⟩
    rw [hex, ← heq]

/-- Witness for C3: re-saving message m1 with seen set flips only its isRead
flag. -/
theorem save_email_merge_witness :
    findActiveAccount dbWithMsg "a@x.com" = some activeRow ∧
    findEmailByData dbWithMsg mergeData.id activeRow.id = some msgRow ∧
    (∃ db2,
      save_email dbWithMsg "a@x.com" mergeData = some (true, db2) ∧
      db2.tempEmails = dbWithMsg.tempEmails ∧
      db2.nextTempId = dbWithMsg.nextTempId ∧
      db2.nextEmailId = dbWithMsg.nextEmailId ∧
      List.Forall₂ (fun r r' : EmailRow =>
        ({ r with is_read := false } : EmailRow) =
          { r' with is_read := false }) dbWithMsg.emails db2.emails ∧
      findEmailByData db2 mergeData.id activeRow.id =
        some { msgRow with is_read := mergeData.seen } ∧
      (mergeData.seen = msgRow.is_read → db2 = dbWithMsg)) :=
  ⟨by decide, by decide,
    save_email_merge dbWithMsg "a@x.com" mergeData activeRow msgRow
      (by decide) (by decide)⟩

/-- C9 (amended): the two AccountStore implementations are not
observationally equivalent: after adding then removing an account, a second
remove_account returns False in the in-memory store (the key is gone) but
True in the database store (the soft-deleted row still matches). -/
theorem mem_db_remove_divergence (email : String) (d : AccountData)
    (now : Nat) :
    (mem_add_account emptyMem email d now).1 = true ∧
    (mem_remove_account (mem_add_account emptyMem email d now).2 email).1 =
      true ∧
    (mem_remove_account (mem_remove_account
        (mem_add_account emptyMem email d now).2 email).2 email).1 = false ∧
    (add_account emptyDB email d now).1 = true ∧
    (remove_account (add_account emptyDB email d now).2 email).1 = true ∧
    (remove_account (remove_account
        (add_account emptyDB email d now).2 email).2 email).1 = true := by
  have hm1 : mem_add_account emptyMem email d now =
      (true, ⟨[(email, ⟨d, now⟩)]⟩) := by
    unfold mem_add_account memCleanup dictSet emptyMem
    simp [Nat.sub_self]
  have hm2 : mem_remove_account (⟨[(email, ⟨d, now⟩)]⟩ : MemStore) email =
      (true, ⟨[]⟩) := by
    unfold mem_remove_account
    simp [List.eraseP_cons]
  have hm3 : mem_remove_account (⟨[]⟩ : MemStore) email = (false, ⟨[]⟩) := by
    unfold mem_remove_account
    simp
  have hnolt : ¬ now < now - DAY := Nat.not_lt.mpr (Nat.sub_le now DAY)
  have hd1 : add_account emptyDB email d now =
      (true, ⟨[⟨1, email, d.id, d.token, d.password, "mail_tm", now, true⟩],
        [], 2, 1⟩) := by
    unfold add_account emptyDB cleanupOldAccounts
    simp [hnolt]
  have hd2 : remove_account
      (⟨[⟨1, email, d.id, d.token, d.password, "mail_tm", now, true⟩],
        [], 2, 1⟩ : DB) email =
      (true, ⟨[⟨1, email, d.id, d.token, d.password, "mail_tm", now, false⟩],
        [], 2, 1⟩) := by
    unfold remove_account updateFirst
    simp
  have hd3 : (remove_account
      (⟨[⟨1, email, d.id, d.token, d.password, "mail_tm", now, false⟩],
        [], 2, 1⟩ : DB) email).1 = true := by
    unfold remove_account updateFirst
    simp
  rw [hm1, hm2, hm3, hd1, hd2]
  exact ⟨rfl, rfl, rfl, rfl, rfl, hd3⟩

/-- Counterexample to C9 as stated: on the sequence add, remove, remove for
the same email the second remove_account returns False in the in-memory
store and True in the database store, so the result pairs differ. -/
theorem remove_twice_results_differ :
    (mem_remove_account (mem_remove_account
        (mem_add_account emptyMem "a@x.com" ⟨"acc", "tok", "pw"⟩ 0).2
        "a@x.com").2 "a@x.com").1 = false ∧
    (remove_account (remove_account
        (add_account emptyDB "a@x.com" ⟨"acc", "tok", "pw"⟩ 0).2
        "a@x.com").2 "a@x.com").1 = true := by decide

end TempMail
